import Mathlib

/-!
# Verification of the gats TestApp unit-test framework

Shallow embedding of `src/ee21/gats/_include/gats/TestApp.hpp`: the
`TestApp::TestCase` data model, its check primitives (`check_equal`,
`check_close_within`, the `GATS_CHECK_THROW` and `GATS_FAIL` macros), the
name-based ordering operators, and the driver-level aggregation described in
the specification.

Counters (`std::uintmax_t` in the source) are modelled as `Nat`: no test run
approaches `2^64` checks, so wrap-around is irrelevant to the properties
verified here.  `double` quantities (weights, tolerance-checked values) are
modelled as `ℚ`; the concrete inputs appearing in the claims are exactly
representable and their comparisons agree with the IEEE-double ones.  Stream
output is modelled as the list of emitted diagnostic strings; the textual
rendering that `operator<<` performs on checked values is passed in as an
explicit rendering function, exactly as the C++ templates delegate it to the
instantiating types.
-/

namespace gats

/-- Lexicographic three-way comparison of character sequences.  Embeds the
`std::basic_string` `operator<=>` that `TestCase::operator<=>` delegates to
(TestApp.hpp:130): compare code units left to right, shorter prefix first. -/
def lexOrd : List Char → List Char → Ordering
  | [], [] => .eq
  | [], _ :: _ => .lt
  | _ :: _, [] => .gt
  | a :: as, b :: bs =>
    if a < b then .lt else if b < a then .gt else lexOrd as bs

/-- The attributes of `TestApp::TestCase` (TestApp.hpp:95-100): the case name,
the checked/passed counters and the weight, with the member initializers of
the source as default values. -/
structure TestCase where
  name_m : String
  nChecked_m : Nat := 0
  nPassed_m : Nat := 0
  weight_m : ℚ := 1

/-- `TestCase::add_check` (TestApp.hpp:116): `++nChecked_m`. -/
def TestCase.add_check (tc : TestCase) : TestCase :=
  { tc with nChecked_m := tc.nChecked_m + 1 }

/-- `TestCase::add_passed` (TestApp.hpp:117): `++nPassed_m`. -/
def TestCase.add_passed (tc : TestCase) : TestCase :=
  { tc with nPassed_m := tc.nPassed_m + 1 }

/-- `TestCase::operator<=>` (TestApp.hpp:130): three-way comparison of the
`name_m` strings only. -/
def TestCase.threeWay (a b : TestCase) : Ordering :=
  lexOrd a.name_m.data b.name_m.data

/-- `TestCase::operator==` (TestApp.hpp:131): equality of the `name_m`
strings only. -/
def TestCase.beqName (a b : TestCase) : Bool :=
  a.name_m == b.name_m

/-- Modelled from the spec: the implementation of
`TestCase::output_check_location` is not under `src/` (TestApp.hpp:118 is
only its declaration).  Spec §4.5 fixes the rendered tag to
`"<fileName>(<lineNumber>): "`, prefixed to every diagnostic. -/
def output_check_location (file : String) (line : Nat) : String :=
  file ++ "(" ++ toString line ++ "): "

/-- Modelled from the spec: the implementation of `TestCase::check` is not
under `src/` (TestApp.hpp:119 is only its declaration).  Spec §4.1:
increments checked; if the condition is false, emits
`<location>"<expressionText>" failed` to the display sink, else increments
passed.  Returns the updated case and the emitted diagnostics. -/
def TestCase.check (tc : TestCase) (condition : Bool) (condStr : String)
    (file : String) (line : Nat) : TestCase × List String :=
  let tc1 := tc.add_check
  if condition = false then
    (tc1, [output_check_location file line ++ "\"" ++ condStr ++ "\" failed\n"])
  else
    (tc1.add_passed, [])

/-- Modelled from the spec: the implementation of `TestCase::check_message`
is not under `src/` (TestApp.hpp:120 is only its declaration).  Spec §4.1:
same as `check` but emits the caller-supplied message when the condition is
false. -/
def TestCase.check_message (tc : TestCase) (condition : Bool)
    (message : String) (file : String) (line : Nat) : TestCase × List String :=
  let tc1 := tc.add_check
  if condition = false then
    (tc1, [output_check_location file line ++ message ++ "\n"])
  else
    (tc1.add_passed, [])

/-- `TestCase::check_equal` (TestApp.hpp:162-174).  The C++ template
delegates `lhs == rhs` and the streaming of both operands to the
instantiating types `LHS`/`RHS`; those are passed here as the explicit
functions `eq`, `showL`, `showR`.  Increments `nChecked_m`; on failure emits
`"<lhsStr>" [<lhs>] != "<rhsStr>" [<rhs>]`, else increments `nPassed_m`. -/
def TestCase.check_equal {LHS RHS : Type} (eq : LHS → RHS → Bool)
    (showL : LHS → String) (showR : RHS → String) (tc : TestCase)
    (lhs : LHS) (rhs : RHS) (lhsStr rhsStr : String)
    (file : String) (line : Nat) : TestCase × List String :=
  let condition := eq lhs rhs
  let tc1 := { tc with nChecked_m := tc.nChecked_m + 1 }
  if condition = false then
    (tc1, [output_check_location file line ++ "\"" ++ lhsStr ++ "\" [" ++
      showL lhs ++ "] != \"" ++ rhsStr ++ "\" [" ++ showR rhs ++ "]\n"])
  else
    ({ tc1 with nPassed_m := tc1.nPassed_m + 1 }, [])

/-- `TestCase::check_close_within` (TestApp.hpp:182-194), instantiated at
real-valued operands (modelled as `ℚ`); the streaming of the operand values
is the explicit rendering function `showV`, as the C++ template delegates it
to `operator<<`.  Computes `condition = |lhs - rhs| <= |minimum|`, calls
`add_check`, then on failure emits
`difference(<lhsStr>, <rhsStr>) > <minimumStr> ==> \t|<lhs> - <rhs>| > <|minimum|>`
and otherwise calls `add_passed`. -/
def TestCase.check_close_within (showV : ℚ → String) (tc : TestCase)
    (lhs rhs minimum : ℚ) (lhsStr rhsStr minimumStr : String)
    (file : String) (line : Nat) : TestCase × List String :=
  let condition : Bool := |lhs - rhs| ≤ |minimum|
  let tc1 := tc.add_check
  if condition = false then
    (tc1, [output_check_location file line ++ "difference(" ++ lhsStr ++
      ", " ++ rhsStr ++ ") > " ++ minimumStr ++ " ==> \t|" ++ showV lhs ++
      " - " ++ showV rhs ++ "| > " ++ showV |minimum| ++ "\n"])
  else
    (tc1.add_passed, [])

/-- The three ways the operation supplied to `GATS_CHECK_THROW` can behave:
it throws the expected exception category (caught by `catch(expectedException)`),
it throws an exception of some other type (caught by `catch(...)`), or it
returns without throwing. -/
inductive ThrowOutcome
  | expectedThrown
  | otherThrown
  | noThrow

/-- `DETAIL_GATS_CHECK_THROW` (TestApp.hpp:277-298): `add_check` first; on
the expected exception `add_passed` (and `isGood = true`); on any other
exception emit the mismatch diagnostic (and `isGood = true`, but no
`add_passed`); if `isGood` remained false — no exception was thrown — emit
the "no exception thrown" diagnostic. -/
def gats_check_throw (tc : TestCase) (outcome : ThrowOutcome)
    (expectedExceptionStr : String) (file : String) (line : Nat) :
    TestCase × List String :=
  let tc1 := tc.add_check
  match outcome with
  | .expectedThrown => (tc1.add_passed, [])
  | .otherThrown =>
    (tc1, [output_check_location file line ++ "unknown exception \"" ++
      expectedExceptionStr ++ "\" not thrown\n"])
  | .noThrow =>
    (tc1, [output_check_location file line ++ "no exception thrown, expecting \"" ++
      expectedExceptionStr ++ "\"\n"])

/-- `DETAIL_GATS_FAIL` (TestApp.hpp:308-315), the per-call effect: `add_check`
(no `add_passed`), emit the message prefixed with the location.  The
`return;` that aborts the test body is modelled in `runBody`. -/
def gats_fail (tc : TestCase) (msg : String) (file : String) (line : Nat) :
    TestCase × List String :=
  (tc.add_check, [output_check_location file line ++ msg ++ "\n"])

/-- Decimal rendering of a terminating fraction, at most `fuel` digits:
the fractional digits `operator<<` prints for a double whose value is
`rem/den` with `0 ≤ rem < den`. -/
def fracDigits : Nat → Nat → Nat → List Char
  | 0, _, _ => []
  | _ + 1, _, 0 => []
  | fuel + 1, den, rem =>
    Char.ofNat (48 + rem * 10 / den) :: fracDigits fuel den (rem * 10 % den)

/-- The text C++ `operator<<` produces (default precision) for a double whose
exact value is the rational `q`, for the terminating-decimal values used in
the concrete examples: integer part, then a point and the fractional digits,
the point omitted when the value is integral. -/
def showDouble (q : ℚ) : String :=
  let sign := if q.num < 0 then "-" else ""
  let n := q.num.natAbs
  let ds := fracDigits 6 q.den (n % q.den)
  if ds.isEmpty then sign ++ toString (n / q.den)
  else sign ++ toString (n / q.den) ++ "." ++ String.mk ds

/-- One call of a check primitive inside a test body, as issued by the
corresponding `GATS_...` macro (TestApp.hpp:232-316).  `checkEqual` carries
the `Int` instantiation of the `check_equal` template. -/
inductive Instr
  | check (condition : Bool) (condStr file : String) (line : Nat)
  | checkMessage (condition : Bool) (message file : String) (line : Nat)
  | checkEqual (lhs rhs : Int) (lhsStr rhsStr file : String) (line : Nat)
  | checkCloseWithin (lhs rhs minimum : ℚ)
      (lhsStr rhsStr minimumStr file : String) (line : Nat)
  | checkThrow (outcome : ThrowOutcome) (expectedStr file : String) (line : Nat)
  | fail (msg file : String) (line : Nat)

/-- The effect of one check-primitive call on the current case and the
display sink. -/
def stepInstr (tc : TestCase) : Instr → TestCase × List String
  | .check c s f l => tc.check c s f l
  | .checkMessage c m f l => tc.check_message c m f l
  | .checkEqual lhs rhs ls rs f l =>
    TestCase.check_equal (fun a b : Int => a == b) toString toString tc lhs rhs ls rs f l
  | .checkCloseWithin lhs rhs minimum ls rs ms f l =>
    TestCase.check_close_within showDouble tc lhs rhs minimum ls rs ms f l
  | .checkThrow o e f l => gats_check_throw tc o e f l
  | .fail m f l => gats_fail tc m f l

/-- Whether the instruction is a `GATS_FAIL`, whose expansion ends in
`return;` (TestApp.hpp:314). -/
def Instr.isFail : Instr → Bool
  | .fail _ _ _ => true
  | _ => false

/-- Execution of a test body (`TestCase::execute`): the primitives run in
order, except that a `GATS_FAIL` returns from the body immediately after
recording and reporting (TestApp.hpp:308-315). -/
def runBody (tc : TestCase) : List Instr → TestCase × List String
  | [] => (tc, [])
  | i :: rest =>
    let r1 := stepInstr tc i
    if i.isFail then r1
    else
      let r2 := runBody r1.1 rest
      (r2.1, r1.2 ++ r2.2)

/-- Modelled from the spec: the implementation of `TestApp::execute` is not
under `src/` (TestApp.hpp:150 is only its declaration).  Spec §4.3: after the
loop the driver computes the aggregate weighted score
`Σ(weight_i × passed_i/checked_i)` over the cases with `checked_i > 0`
(cases with zero checks contribute zero, not undefined), divided by
`Σ(weight_i)` over those same cases. -/
def aggregate_score (cases : List TestCase) : ℚ :=
  let contributing := cases.filter (fun c => 0 < c.nChecked_m)
  (contributing.map
    (fun c => c.weight_m * ((c.nPassed_m : ℚ) / (c.nChecked_m : ℚ)))).sum /
  (contributing.map (fun c => c.weight_m)).sum

/-- The name order used by the driver's sort: `a` precedes `b` when
`TestCase::operator<=>` does not place it after `b`. -/
def nameLe (a b : TestCase) : Prop := a.threeWay b ≠ .gt

instance : DecidableRel nameLe := fun a b =>
  inferInstanceAs (Decidable (a.threeWay b ≠ .gt))

/-- Modelled from the spec: the implementation of `TestApp::execute` is not
under `src/` (TestApp.hpp:150 is only its declaration).  Spec §4.3: the
driver "sorts the sequence by `name` ascending (total order per §3)" before
running; the order itself comes from `TestCase::operator<=>`
(TestApp.hpp:130), which is in the source and embedded as `nameLe`. -/
def driver_order (cases : List TestCase) : List TestCase :=
  List.insertionSort nameLe cases

theorem lexOrd_self : ∀ as : List Char, lexOrd as as = .eq := by
  intro as
  induction as with
  | nil => rfl
  | cons a as ih => simp [lexOrd, lt_irrefl, ih]

theorem lexOrd_eq_eq_iff : ∀ as bs : List Char, lexOrd as bs = .eq ↔ as = bs := by
  intro as
  induction as with
  | nil => intro bs; cases bs <;> simp [lexOrd]
  | cons a as ih =>
    intro bs
    cases bs with
    | nil => simp [lexOrd]
    | cons b bs =>
      simp only [lexOrd]
      rcases lt_trichotomy a b with h | h | h
      · rw [if_pos h]; simp [ne_of_lt h]
      · subst h; simp [lt_irrefl, ih]
      · rw [if_neg (lt_asymm h), if_pos h]; simp [ne_of_gt h]

theorem lexOrd_swap : ∀ as bs : List Char, lexOrd bs as = (lexOrd as bs).swap := by
  intro as
  induction as with
  | nil => intro bs; cases bs <;> rfl
  | cons a as ih =>
    intro bs
    cases bs with
    | nil => rfl
    | cons b bs =>
      simp only [lexOrd]
      rcases lt_trichotomy a b with h | h | h
      · rw [if_neg (lt_asymm h), if_pos h, if_pos h]; rfl
      · subst h; simp only [lt_irrefl, if_false]; exact ih bs
      · rw [if_pos h, if_pos h, if_neg (lt_asymm h)]; rfl

theorem lexOrd_gt_iff (as bs : List Char) :
    lexOrd as bs = .gt ↔ lexOrd bs as = .lt := by
  rw [lexOrd_swap as bs]
  cases h : lexOrd as bs <;> simp [Ordering.swap]

theorem lexOrd_lt_iff : ∀ as bs : List Char,
    lexOrd as bs = .lt ↔ List.Lex (· < ·) as bs := by
  intro as
  induction as with
  | nil =>
    intro bs
    cases bs with
    | nil =>
      constructor
      · intro h; simp [lexOrd] at h
      · intro h; cases h
    | cons b bs => exact iff_of_true rfl List.Lex.nil
  | cons a as ih =>
    intro bs
    cases bs with
    | nil =>
      constructor
      · intro h; simp [lexOrd] at h
      · intro h; cases h
    | cons b bs =>
      simp only [lexOrd]
      rcases lt_trichotomy a b with h | h | h
      · rw [if_pos h]
        exact iff_of_true rfl (List.Lex.rel h)
      · subst h
        rw [if_neg (lt_irrefl a), if_neg (lt_irrefl a), ih bs]
        constructor
        · exact fun hl => List.Lex.cons hl
        · intro hl
          cases hl with
          | cons htl => exact htl
          | rel hr => exact absurd hr (lt_irrefl a)
      · rw [if_neg (lt_asymm h), if_pos h]
        constructor
        · intro hgt; simp at hgt
        · intro hl
          cases hl with
          | cons htl => exact absurd h (lt_irrefl _)
          | rel hr => exact absurd h (lt_asymm hr)

theorem lexOrd_ne_gt_trans :
    ∀ as bs cs : List Char, lexOrd as bs ≠ .gt → lexOrd bs cs ≠ .gt →
      lexOrd as cs ≠ .gt := by
  intro as
  induction as with
  | nil =>
    intro bs cs _ _
    cases cs <;> simp [lexOrd]
  | cons a as ih =>
    intro bs cs h1 h2
    cases bs with
    | nil => simp [lexOrd] at h1
    | cons b bs =>
      cases cs with
      | nil => simp [lexOrd] at h2
      | cons c cs =>
        simp only [lexOrd] at h1 h2 ⊢
        rcases lt_trichotomy a b with hab | hab | hab
        · rcases lt_trichotomy b c with hbc | hbc | hbc
          · rw [if_pos (lt_trans hab hbc)]; simp
          · subst hbc; rw [if_pos hab]; simp
          · rw [if_neg (lt_asymm hbc), if_pos hbc] at h2
            exact absurd rfl h2
        · subst hab
          rw [if_neg (lt_irrefl a), if_neg (lt_irrefl a)] at h1
          rcases lt_trichotomy a c with hac | hac | hac
          · rw [if_pos hac]; simp
          · subst hac
            rw [if_neg (lt_irrefl a), if_neg (lt_irrefl a)] at h2 ⊢
            exact ih bs cs h1 h2
          · rw [if_neg (lt_asymm hac), if_pos hac] at h2
            exact absurd rfl h2
        · rw [if_neg (lt_asymm hab), if_pos hab] at h1
          exact absurd rfl h1

instance : IsTrans TestCase nameLe :=
  ⟨fun _ _ _ h1 h2 => lexOrd_ne_gt_trans _ _ _ h1 h2⟩

instance : IsTotal TestCase nameLe := by
  constructor
  intro a b
  by_cases h : lexOrd a.name_m.data b.name_m.data = .gt
  · right
    show lexOrd b.name_m.data a.name_m.data ≠ .gt
    rw [(lexOrd_gt_iff _ _).mp h]
    simp
  · left
    exact h

theorem stepInstr_nChecked (tc : TestCase) (i : Instr) :
    (stepInstr tc i).1.nChecked_m = tc.nChecked_m + 1 := by
  cases i with
  | check c s f l =>
    simp only [stepInstr, TestCase.check, TestCase.add_check, TestCase.add_passed]
    split <;> rfl
  | checkMessage c m f l =>
    simp only [stepInstr, TestCase.check_message, TestCase.add_check, TestCase.add_passed]
    split <;> rfl
  | checkEqual lhs rhs ls rs f l =>
    simp only [stepInstr, TestCase.check_equal]
    split <;> rfl
  | checkCloseWithin lhs rhs m ls rs ms f l =>
    simp only [stepInstr, TestCase.check_close_within, TestCase.add_check, TestCase.add_passed]
    split <;> rfl
  | checkThrow o e f l =>
    cases o <;> rfl
  | fail m f l => rfl

theorem stepInstr_nPassed (tc : TestCase) (i : Instr) :
    (stepInstr tc i).1.nPassed_m = tc.nPassed_m ∨
      (stepInstr tc i).1.nPassed_m = tc.nPassed_m + 1 := by
  cases i with
  | check c s f l =>
    simp only [stepInstr, TestCase.check, TestCase.add_check, TestCase.add_passed]
    split
    · exact Or.inl rfl
    · exact Or.inr rfl
  | checkMessage c m f l =>
    simp only [stepInstr, TestCase.check_message, TestCase.add_check, TestCase.add_passed]
    split
    · exact Or.inl rfl
    · exact Or.inr rfl
  | checkEqual lhs rhs ls rs f l =>
    simp only [stepInstr, TestCase.check_equal]
    split
    · exact Or.inl rfl
    · exact Or.inr rfl
  | checkCloseWithin lhs rhs m ls rs ms f l =>
    simp only [stepInstr, TestCase.check_close_within, TestCase.add_check, TestCase.add_passed]
    split
    · exact Or.inl rfl
    · exact Or.inr rfl
  | checkThrow o e f l =>
    cases o with
    | expectedThrown => exact Or.inr rfl
    | otherThrown => exact Or.inl rfl
    | noThrow => exact Or.inl rfl
  | fail m f l => exact Or.inl rfl

/-- C5: after any sequence of check-primitive invocations, a case that
started with `nPassed_m ≤ nChecked_m` still satisfies the invariant, and
both counters only ever increase. -/
theorem runBody_counters (tc : TestCase) (body : List Instr)
    (h : tc.nPassed_m ≤ tc.nChecked_m) :
    (runBody tc body).1.nPassed_m ≤ (runBody tc body).1.nChecked_m ∧
      tc.nChecked_m ≤ (runBody tc body).1.nChecked_m ∧
      tc.nPassed_m ≤ (runBody tc body).1.nPassed_m := by
  induction body generalizing tc with
  | nil => exact ⟨h, le_refl _, le_refl _⟩
  | cons i rest ih =>
    have hc := stepInstr_nChecked tc i
    have hp := stepInstr_nPassed tc i
    simp only [runBody]
    split
    · exact ⟨by omega, by omega, by omega⟩
    · have h2 := ih (stepInstr tc i).1 (by omega)
      dsimp only
      exact ⟨h2.1, by omega, by omega⟩

theorem runBody_mem_fail_strict (tc : TestCase) (body : List Instr)
    (h : tc.nPassed_m ≤ tc.nChecked_m) (msg file : String) (line : Nat)
    (hmem : Instr.fail msg file line ∈ body) :
    (runBody tc body).1.nPassed_m < (runBody tc body).1.nChecked_m := by
  induction body generalizing tc with
  | nil => cases hmem
  | cons i rest ih =>
    simp only [runBody]
    by_cases hf : i.isFail = true
    · rw [if_pos hf]
      cases i with
      | fail m f l =>
        simp only [stepInstr, gats_fail, TestCase.add_check]
        omega
      | check c s f l => simp [Instr.isFail] at hf
      | checkMessage c m f l => simp [Instr.isFail] at hf
      | checkEqual lhs rhs ls rs f l => simp [Instr.isFail] at hf
      | checkCloseWithin lhs rhs m ls rs ms f l => simp [Instr.isFail] at hf
      | checkThrow o e f l => simp [Instr.isFail] at hf
    · rw [if_neg hf]
      have hmem2 : Instr.fail msg file line ∈ rest := by
        cases hmem with
        | head => simp [Instr.isFail] at hf
        | tail _ htl => exact htl
      have hc := stepInstr_nChecked tc i
      have hp := stepInstr_nPassed tc i
      exact ih (stepInstr tc i).1 (by omega) hmem2

theorem runBody_append_fail (tc : TestCase) (pre : List Instr)
    (msg file : String) (line : Nat) (post : List Instr) :
    runBody tc (pre ++ Instr.fail msg file line :: post) =
      runBody tc (pre ++ [Instr.fail msg file line]) := by
  induction pre generalizing tc with
  | nil => rfl
  | cons i pre ih =>
    simp only [List.cons_append, runBody, List.append_eq]
    split
    · rfl
    · rw [ih]

theorem abs_tenth : |(1:ℚ)/10| = 1/10 :=
  abs_of_nonneg (by norm_num)

theorem abs_diff_five_505 : |(5:ℚ) - 505/100| = 1/20 := by
  rw [abs_sub_comm, show (505:ℚ)/100 - 5 = 1/20 by norm_num]
  exact abs_of_nonneg (by norm_num)

theorem abs_diff_five_52 : |(5:ℚ) - 52/10| = 1/5 := by
  rw [abs_sub_comm, show (52:ℚ)/10 - 5 = 1/5 by norm_num]
  exact abs_of_nonneg (by norm_num)

theorem close_pass_505 : |(5:ℚ) - 505/100| ≤ |(1:ℚ)/10| := by
  rw [abs_diff_five_505, abs_tenth]
  norm_num

theorem close_pass_505_neg : |(5:ℚ) - 505/100| ≤ |-((1:ℚ)/10)| := by
  rw [abs_neg]
  exact close_pass_505

theorem close_fail_52 : ¬ (|(5:ℚ) - 52/10| ≤ |(1:ℚ)/10|) := by
  rw [abs_diff_five_52, abs_tenth]
  norm_num

theorem showDouble_five : showDouble (5 : ℚ) = "5" := by
  rw [show (5:ℚ) = (⟨5, 1, by decide, by decide⟩ : ℚ) by
    rw [Rat.mk'_eq_divInt, Rat.divInt_eq_div]; norm_num]
  rfl

theorem showDouble_52 : showDouble ((52:ℚ)/10) = "5.2" := by
  rw [show (52:ℚ)/10 = (⟨26, 5, by decide, by decide⟩ : ℚ) by
    rw [Rat.mk'_eq_divInt, Rat.divInt_eq_div]; norm_num]
  rfl

theorem showDouble_tenth : showDouble ((1:ℚ)/10) = "0.1" := by
  rw [show (1:ℚ)/10 = (⟨1, 10, by decide, by decide⟩ : ℚ) by
    rw [Rat.mk'_eq_divInt, Rat.divInt_eq_div]; norm_num]
  rfl

theorem showDouble_fifth : showDouble ((1:ℚ)/5) = "0.2" := by
  rw [show (1:ℚ)/5 = (⟨1, 5, by decide, by decide⟩ : ℚ) by
    rw [Rat.mk'_eq_divInt, Rat.divInt_eq_div]; norm_num]
  rfl

theorem check_close_within_failure_message (showV : ℚ → String) (tc : TestCase)
    (lhs rhs minimum : ℚ) (lhsStr rhsStr minimumStr file : String) (line : Nat)
    (h : ¬ (|lhs - rhs| ≤ |minimum|)) :
    (TestCase.check_close_within showV tc lhs rhs minimum lhsStr rhsStr minimumStr file line).2 =
      [output_check_location file line ++ "difference(" ++ lhsStr ++ ", " ++
        rhsStr ++ ") > " ++ minimumStr ++ " ==> \t|" ++ showV lhs ++ " - " ++
        showV rhs ++ "| > " ++ showV |minimum| ++ "\n"] := by
  simp [TestCase.check_close_within, h]

/-- C1: the aggregate weighted score sums `weight_i × passed_i/checked_i`
over the cases with `checked_i > 0` and divides by the sum of those cases'
weights; a case with zero checks contributes to neither sum (here one with
weight 5), and for weights 2.0 and 1.0 with 3/4 and 2/2 checks passed the
score is `(2.0×0.75 + 1.0×1.0) / 3.0 = 5/6 = 0.8333…`. -/
theorem aggregate_score_weighted_example :
    aggregate_score
      [{ name_m := "caseZero", nChecked_m := 0, nPassed_m := 0, weight_m := 5 },
       { name_m := "caseA", nChecked_m := 4, nPassed_m := 3, weight_m := 2 },
       { name_m := "caseB", nChecked_m := 2, nPassed_m := 2, weight_m := 1 }] = 5/6 := by
  simp [aggregate_score, List.filter]
  norm_num

/-- C3 counterexample: when the supplied operation throws an exception of a
type other than the expected one, `GATS_CHECK_THROW` does NOT increment the
passed counter — contrary to the claim that such a check "still counts as
passed" (here: a case with passed count 0 keeps passed count 0). -/
theorem gats_check_throw_wrong_type_not_a_pass :
    ¬ ((gats_check_throw { name_m := "T" } .otherThrown "std::logic_error"
        "file.cpp" 10).1.nPassed_m =
      ({ name_m := "T" } : TestCase).nPassed_m + 1) := by
  simp [gats_check_throw, TestCase.add_check]

/-- C3 (amended): every `GATS_CHECK_THROW` increments the checked counter by
one; the expected exception also increments the passed counter and emits
nothing; an exception of any other type emits the mismatch diagnostic and
suppresses the "no exception thrown" failure message but does NOT increment
the passed counter (so in the tallies the check is recorded as failed); no
exception at all leaves passed unchanged and emits the "no exception thrown"
diagnostic. -/
theorem gats_check_throw_spec (tc : TestCase) (outcome : ThrowOutcome)
    (e file : String) (line : Nat) :
    ((gats_check_throw tc outcome e file line).1.nChecked_m = tc.nChecked_m + 1) ∧
    ((gats_check_throw tc outcome e file line).1.nPassed_m =
      match outcome with
      | .expectedThrown => tc.nPassed_m + 1
      | .otherThrown => tc.nPassed_m
      | .noThrow => tc.nPassed_m) ∧
    ((gats_check_throw tc outcome e file line).2 =
      match outcome with
      | .expectedThrown => []
      | .otherThrown => [output_check_location file line ++
          "unknown exception \"" ++ e ++ "\" not thrown\n"]
      | .noThrow => [output_check_location file line ++
          "no exception thrown, expecting \"" ++ e ++ "\"\n"]) := by
  cases outcome <;>
    exact ⟨rfl, rfl, rfl⟩

/-- C4: `check_close_within(lhs, rhs, minimum, …)` increments the checked
counter by one and increments the passed counter iff `|lhs - rhs| ≤
|minimum|`; a negative minimum is compared by absolute value; concretely,
`(5.0, 5.05, 0.1)` passes, `(5.0, 5.2, 0.1)` fails, and `(5.0, 5.05, -0.1)`
passes. -/
theorem check_close_within_pass_iff :
    (∀ (showV : ℚ → String) (tc : TestCase) (lhs rhs minimum : ℚ)
        (lhsStr rhsStr minimumStr file : String) (line : Nat),
      ((TestCase.check_close_within showV tc lhs rhs minimum lhsStr rhsStr
          minimumStr file line).1.nChecked_m = tc.nChecked_m + 1) ∧
      ((TestCase.check_close_within showV tc lhs rhs minimum lhsStr rhsStr
          minimumStr file line).1.nPassed_m =
        if |lhs - rhs| ≤ |minimum| then tc.nPassed_m + 1 else tc.nPassed_m)) ∧
    ((TestCase.check_close_within showDouble { name_m := "T" } 5 (505/100)
        (1/10) "x" "y" "m" "t.cpp" 1).1.nPassed_m = 1) ∧
    ((TestCase.check_close_within showDouble { name_m := "T" } 5 (52/10)
        (1/10) "x" "y" "m" "t.cpp" 1).1.nPassed_m = 0) ∧
    ((TestCase.check_close_within showDouble { name_m := "T" } 5 (505/100)
        (-(1/10)) "x" "y" "m" "t.cpp" 1).1.nPassed_m = 1) := by
  have gen : ∀ (showV : ℚ → String) (tc : TestCase) (lhs rhs minimum : ℚ)
      (lhsStr rhsStr minimumStr file : String) (line : Nat),
      ((TestCase.check_close_within showV tc lhs rhs minimum lhsStr rhsStr
          minimumStr file line).1.nChecked_m = tc.nChecked_m + 1) ∧
      ((TestCase.check_close_within showV tc lhs rhs minimum lhsStr rhsStr
          minimumStr file line).1.nPassed_m =
        if |lhs - rhs| ≤ |minimum| then tc.nPassed_m + 1 else tc.nPassed_m) := by
    intro showV tc lhs rhs minimum lhsStr rhsStr minimumStr file line
    by_cases h : |lhs - rhs| ≤ |minimum| <;>
      simp [TestCase.check_close_within, TestCase.add_check, TestCase.add_passed, h]
  refine ⟨gen, ?_, ?_, ?_⟩
  · rw [(gen showDouble { name_m := "T" } 5 (505/100) (1/10) "x" "y" "m" "t.cpp" 1).2,
      if_pos close_pass_505]
  · rw [(gen showDouble { name_m := "T" } 5 (52/10) (1/10) "x" "y" "m" "t.cpp" 1).2,
      if_neg close_fail_52]
  · rw [(gen showDouble { name_m := "T" } 5 (505/100) (-(1/10)) "x" "y" "m" "t.cpp" 1).2,
      if_pos close_pass_505_neg]

/-- C2: the driver runs the registered cases sorted ascending by the
name-based order of `TestCase::operator<=>` (a permutation of the
registered cases, in nondescending name order), independent of registration
order; concretely, a case named "Zebra" registered before a case named
"Apple" still runs after it. -/
theorem driver_order_lexicographic (cases : List TestCase) :
    (driver_order cases).Sorted nameLe ∧
      (driver_order cases).Perm cases ∧
      driver_order [{ name_m := "Zebra" }, { name_m := "Apple" }] =
        [{ name_m := "Apple" }, { name_m := "Zebra" }] :=
  ⟨List.sorted_insertionSort nameLe cases, List.perm_insertionSort nameLe cases, rfl⟩

/-- C5 witness: the invariant theorem applied to a fresh case (counters 0/0)
and a concrete body exercising several primitives. -/
theorem runBody_counters_witness :
    ({ name_m := "T" } : TestCase).nPassed_m ≤
        ({ name_m := "T" } : TestCase).nChecked_m ∧
      (runBody { name_m := "T" }
        [Instr.check true "1 == 1" "t.cpp" 5,
         Instr.checkEqual 5 6 "a" "b" "t.cpp" 6,
         Instr.checkThrow .noThrow "std::exception" "t.cpp" 7,
         Instr.fail "done" "t.cpp" 8]).1.nPassed_m ≤
      (runBody { name_m := "T" }
        [Instr.check true "1 == 1" "t.cpp" 5,
         Instr.checkEqual 5 6 "a" "b" "t.cpp" 6,
         Instr.checkThrow .noThrow "std::exception" "t.cpp" 7,
         Instr.fail "done" "t.cpp" 8]).1.nChecked_m :=
  ⟨by decide,
    (runBody_counters { name_m := "T" }
      [Instr.check true "1 == 1" "t.cpp" 5,
       Instr.checkEqual 5 6 "a" "b" "t.cpp" 6,
       Instr.checkThrow .noThrow "std::exception" "t.cpp" 7,
       Instr.fail "done" "t.cpp" 8] (by decide)).1⟩

/-- C6: `check_equal` increments the checked counter by one; it compares
with the operands' own equality; when equal it increments the passed counter
and emits nothing; when unequal it leaves the passed counter and emits the
diagnostic `"<lhsText>" [<lhs>] != "<rhsText>" [<rhs>]` carrying both
operand texts and both rendered values; concretely `check_equal(5, 5, …)`
passes silently and `check_equal(5, 6, …)` fails with that diagnostic. -/
theorem check_equal_native_equality :
    (∀ (LHS RHS : Type) (eq : LHS → RHS → Bool) (showL : LHS → String)
        (showR : RHS → String) (tc : TestCase) (lhs : LHS) (rhs : RHS)
        (lhsStr rhsStr file : String) (line : Nat),
      ((TestCase.check_equal eq showL showR tc lhs rhs lhsStr rhsStr file
          line).1.nChecked_m = tc.nChecked_m + 1) ∧
      ((TestCase.check_equal eq showL showR tc lhs rhs lhsStr rhsStr file
          line).1.nPassed_m =
        if eq lhs rhs then tc.nPassed_m + 1 else tc.nPassed_m) ∧
      ((TestCase.check_equal eq showL showR tc lhs rhs lhsStr rhsStr file
          line).2 =
        if eq lhs rhs then []
        else [output_check_location file line ++ "\"" ++ lhsStr ++ "\" [" ++
          showL lhs ++ "] != \"" ++ rhsStr ++ "\" [" ++ showR rhs ++ "]\n"])) ∧
    ((TestCase.check_equal (fun a b : Int => a == b) toString toString
        { name_m := "T" } 5 5 "a" "b" "t.cpp" 3).1.nPassed_m = 1) ∧
    ((TestCase.check_equal (fun a b : Int => a == b) toString toString
        { name_m := "T" } 5 5 "a" "b" "t.cpp" 3).2 = []) ∧
    ((TestCase.check_equal (fun a b : Int => a == b) toString toString
        { name_m := "T" } 5 6 "a" "b" "t.cpp" 3).1.nPassed_m = 0) ∧
    ((TestCase.check_equal (fun a b : Int => a == b) toString toString
        { name_m := "T" } 5 6 "a" "b" "t.cpp" 3).2 =
      ["t.cpp(3): \"a\" [5] != \"b\" [6]\n"]) := by
  refine ⟨?_, rfl, rfl, rfl, rfl⟩
  intro LHS RHS eq showL showR tc lhs rhs lhsStr rhsStr file line
  by_cases h : eq lhs rhs
  · simp [TestCase.check_equal, h]
  · simp only [Bool.not_eq_true] at h
    simp [TestCase.check_equal, h]

/-- C7: a `GATS_FAIL` records the failure (checked counter incremented,
passed counter untouched), reports it (the located message is emitted), and
returns from the test body at once: whatever instructions follow it in the
body are never run and change nothing — the run of `pre ++ fail :: post` is
the run of `pre ++ fail`, for every `post`. -/
theorem gats_fail_aborts_body (tc : TestCase) (pre : List Instr)
    (msg file : String) (line : Nat) (post : List Instr) :
    runBody tc (pre ++ Instr.fail msg file line :: post) =
        runBody tc (pre ++ [Instr.fail msg file line]) ∧
      runBody tc [Instr.fail msg file line] =
        (tc.add_check, [output_check_location file line ++ msg ++ "\n"]) :=
  ⟨runBody_append_fail tc pre msg file line post, rfl⟩

/-- C8 (amended): a failing `check_close_within` emits a diagnostic carrying
the operand source texts, the two rendered operand values (between vertical
bars, as `|<lhs> - <rhs>|`), and the rendered absolute minimum — not the
computed numerical value of the absolute difference. -/
theorem check_close_within_failure_diagnostic (showV : ℚ → String)
    (tc : TestCase) (lhs rhs minimum : ℚ)
    (lhsStr rhsStr minimumStr file : String) (line : Nat)
    (h : ¬ (|lhs - rhs| ≤ |minimum|)) :
    (TestCase.check_close_within showV tc lhs rhs minimum lhsStr rhsStr
        minimumStr file line).2 =
      [output_check_location file line ++ "difference(" ++ lhsStr ++ ", " ++
        rhsStr ++ ") > " ++ minimumStr ++ " ==> \t|" ++ showV lhs ++ " - " ++
        showV rhs ++ "| > " ++ showV |minimum| ++ "\n"] :=
  check_close_within_failure_message showV tc lhs rhs minimum lhsStr rhsStr
    minimumStr file line h

/-- C8 witness: the amended diagnostic shape at the concrete failing call
`check_close_within(5.0, 5.2, 0.1, …)`. -/
theorem check_close_within_failure_diagnostic_witness :
    ¬ (|(5:ℚ) - 52/10| ≤ |(1:ℚ)/10|) ∧
      (TestCase.check_close_within showDouble { name_m := "T" } 5 (52/10)
        (1/10) "x" "y" "eps" "t.cpp" 7).2 =
      [output_check_location "t.cpp" 7 ++ "difference(" ++ "x" ++ ", " ++
        "y" ++ ") > " ++ "eps" ++ " ==> \t|" ++ showDouble 5 ++ " - " ++
        showDouble (52/10) ++ "| > " ++ showDouble |(1:ℚ)/10| ++ "\n"] :=
  ⟨close_fail_52,
    check_close_within_failure_diagnostic showDouble { name_m := "T" } 5
      (52/10) (1/10) "x" "y" "eps" "t.cpp" 7 close_fail_52⟩

/-- C8 counterexample: for `check_close_within(5.0, 5.2, 0.1, …)` the emitted
diagnostic is exactly `t.cpp(7): difference(x, y) > eps ==> \t|5 - 5.2| > 0.1`
— the rendered computed absolute difference (`0.2`) does not occur anywhere
in it, so the diagnostic does not report `0.2 > 0.1` as claimed; it shows
the two operand values and the absolute minimum instead. -/
theorem check_close_within_diag_omits_difference :
    ((TestCase.check_close_within showDouble { name_m := "T" } 5 (52/10)
        (1/10) "x" "y" "eps" "t.cpp" 7).2 =
      ["t.cpp(7): difference(x, y) > eps ==> \t|5 - 5.2| > 0.1\n"]) ∧
    (showDouble |(5:ℚ) - 52/10| = "0.2") ∧
    ¬ ("0.2".data <:+:
        "t.cpp(7): difference(x, y) > eps ==> \t|5 - 5.2| > 0.1\n".data) := by
  refine ⟨?_, ?_, by decide⟩
  · rw [check_close_within_failure_message showDouble { name_m := "T" } 5
      (52/10) (1/10) "x" "y" "eps" "t.cpp" 7 close_fail_52,
      showDouble_five, showDouble_52, abs_tenth, showDouble_tenth]
    rfl
  · rw [abs_diff_five_52]
    exact showDouble_fifth

/-- C9: `TestCase::operator==` and `TestCase::operator<=>` compare only the
`name_m` attribute: equality holds iff the names are equal, the three-way
result is `eq` iff the names are equal (so it is reflexive), strict-less is
irreflexive and agrees with the lexicographic order on the name strings,
the comparison is total, and both operators are independent of the weight
and counter fields. -/
theorem testcase_ops_compare_name_only (a b : TestCase) :
    (TestCase.beqName a b = true ↔ a.name_m = b.name_m) ∧
    (a.threeWay b = .eq ↔ a.name_m = b.name_m) ∧
    (a.threeWay a = .eq) ∧
    (¬ a.threeWay a = .lt) ∧
    ((a.threeWay b = .lt) ↔ (b.threeWay a = .gt)) ∧
    ((a.threeWay b = .lt) ↔ a.name_m < b.name_m) ∧
    (a.threeWay b = .lt ∨ a.threeWay b = .eq ∨ b.threeWay a = .lt) ∧
    (∀ (c p : Nat) (w : ℚ) (c2 p2 : Nat) (w2 : ℚ),
      TestCase.threeWay ⟨a.name_m, c, p, w⟩ ⟨b.name_m, c2, p2, w2⟩ =
          a.threeWay b ∧
        TestCase.beqName ⟨a.name_m, c, p, w⟩ ⟨b.name_m, c2, p2, w2⟩ =
          TestCase.beqName a b) := by
  refine ⟨?_, ?_, lexOrd_self _, ?_, ?_, ?_, ?_, fun c p w c2 p2 w2 => ⟨rfl, rfl⟩⟩
  · simp [TestCase.beqName]
  · rw [TestCase.threeWay, lexOrd_eq_eq_iff]
    constructor
    · exact fun h => String.ext h
    · exact fun h => by rw [h]
  · show ¬ lexOrd a.name_m.data a.name_m.data = .lt
    rw [lexOrd_self]
    simp
  · exact (lexOrd_gt_iff b.name_m.data a.name_m.data).symm
  · rw [String.lt_iff_toList_lt]
    exact lexOrd_lt_iff _ _
  · rcases h : lexOrd a.name_m.data b.name_m.data with _ | _ | _
    · exact Or.inl h
    · exact Or.inr (Or.inl h)
    · exact Or.inr (Or.inr ((lexOrd_gt_iff _ _).mp h))

/-- C10: `GATS_FAIL` increments the checked counter by one and never the
passed counter; consequently a body containing a `GATS_FAIL`, run from a
case satisfying the invariant, finishes with `nPassed_m` strictly below
`nChecked_m`, so such a case can never report all its checks passed. -/
theorem gats_fail_checked_without_passed (tc : TestCase) (msg file : String)
    (line : Nat) :
    ((gats_fail tc msg file line).1.nChecked_m = tc.nChecked_m + 1) ∧
    ((gats_fail tc msg file line).1.nPassed_m = tc.nPassed_m) ∧
    (∀ body : List Instr, tc.nPassed_m ≤ tc.nChecked_m →
      Instr.fail msg file line ∈ body →
      (runBody tc body).1.nPassed_m < (runBody tc body).1.nChecked_m) ∧
    (∀ cs : List TestCase, (∀ c ∈ cs, c.nPassed_m ≤ c.nChecked_m) →
      (∃ c ∈ cs, c.nPassed_m < c.nChecked_m) →
      (cs.map (fun c => c.nPassed_m)).sum <
        (cs.map (fun c => c.nChecked_m)).sum) :=
  ⟨rfl, rfl,
    fun body h hmem => runBody_mem_fail_strict tc body h msg file line hmem,
    fun _ h1 h2 => List.sum_lt_sum _ _ h1 h2⟩

/-- C10 witness: a fresh case running a body that is a single `GATS_FAIL`
ends with passed 0 < checked 1. -/
theorem gats_fail_checked_without_passed_witness :
    (({ name_m := "T" } : TestCase).nPassed_m ≤
        ({ name_m := "T" } : TestCase).nChecked_m) ∧
      ((runBody { name_m := "T" } [Instr.fail "forced" "t.cpp" 9]).1.nPassed_m <
        (runBody { name_m := "T" } [Instr.fail "forced" "t.cpp" 9]).1.nChecked_m) ∧
      (([{ name_m := "T", nChecked_m := 1, nPassed_m := 0, weight_m := 1 }].map
          (fun c : TestCase => c.nPassed_m)).sum <
        ([{ name_m := "T", nChecked_m := 1, nPassed_m := 0, weight_m := 1 }].map
          (fun c : TestCase => c.nChecked_m)).sum) :=
  ⟨by decide,
    (gats_fail_checked_without_passed { name_m := "T" } "forced" "t.cpp"
        9).2.2.1 [Instr.fail "forced" "t.cpp" 9] (by decide)
      (List.mem_singleton_self _),
    (gats_fail_checked_without_passed { name_m := "T" } "forced" "t.cpp"
        9).2.2.2 [{ name_m := "T", nChecked_m := 1, nPassed_m := 0, weight_m := 1 }]
      (fun c hc => by
        rw [List.mem_singleton] at hc
        rw [hc]
        exact Nat.zero_le 1)
      ⟨{ name_m := "T", nChecked_m := 1, nPassed_m := 0, weight_m := 1 },
        List.mem_singleton_self _, Nat.zero_lt_one⟩⟩

end gats
